import Mathlib

/-!
A shallow embedding of `tools/check_sha.py` together with theorems settling
the specification claims about it.

Python strings are modelled as `List Char`; Python dictionaries as ordered
association lists (insertion order preserved, updates in place, as for
Python 3 `dict`); Python exceptions as `Except PyErr`; the external
collaborators (the `download_file.py` lookup and the `sed` invocation) as
explicit function parameters, following the specification's statement that
artifact retrieval and external utilities are black boxes.
-/

/-- Python strings are modelled as lists of characters. -/
abbrev Str := List Char

/-- The characters Python `str.strip()` removes. -/
def isPySpace (c : Char) : Bool :=
  c == ' ' || c == '\t' || c == '\n' || c == '\r' || c == '\x0b' || c == '\x0c'

/-- Python `str.strip()`: drop whitespace from both ends. -/
def pyStrip (s : Str) : Str :=
  ((s.dropWhile isPySpace).reverse.dropWhile isPySpace).reverse

/-- Python `str.split(sep)` for a one-character separator: split at every
occurrence, preserving empty chunks; the empty string yields `[""]`. -/
def pySplit (sep : Char) : Str → List Str
  | [] => [[]]
  | c :: rest =>
    let r := pySplit sep rest
    if c = sep then [] :: r
    else (c :: r.headD []) :: r.tail

/-- Whether `p` occurs in `s` as a contiguous substring (the empty pattern
occurs in every string, as for Python `in`). -/
def occursIn (p : Str) : Str → Bool
  | [] => p.isEmpty
  | c :: rest => p.isPrefixOf (c :: rest) || occursIn p rest

/-- Fuel-driven worker for `pyReplace`: scan left to right, replacing
non-overlapping occurrences of `p` by `r`. The fuel is always instantiated
with the length of the scanned string, which suffices because a nonempty
pattern consumes at least one character per step. -/
def replGo (p r : Str) : Nat → Str → Str
  | 0, s => s
  | fuel + 1, [] => (fun _ => []) fuel
  | fuel + 1, c :: rest =>
    if p.isPrefixOf (c :: rest) then r ++ replGo p r fuel ((c :: rest).drop p.length)
    else c :: replGo p r fuel rest

/-- Python `s.replace(old, new)`: replace every non-overlapping occurrence,
left to right; an empty pattern inserts `new` between all characters and at
both ends, as Python does. -/
def pyReplace (s p r : Str) : Str :=
  match p with
  | [] => r ++ s.foldr (fun c acc => c :: r ++ acc) []
  | _ :: _ => replGo p r s.length s

/-- Lookup in an ordered association list (Python `dict` access). -/
def lookupA {κ ε : Type} [DecidableEq κ] (k : κ) : List (κ × ε) → Option ε
  | [] => none
  | p :: rest => if p.1 = k then some p.2 else lookupA k rest

/-- Python `dict` assignment: update the value in place when the key exists
(keeping its position), otherwise append the new binding at the end. -/
def updAssoc {κ ε : Type} [DecidableEq κ] (m : List (κ × ε)) (k : κ) (v : ε) :
    List (κ × ε) :=
  if (lookupA k m).isSome then m.map (fun p => if p.1 = k then (k, v) else p)
  else m ++ [(k, v)]

/-- Python `str(x)` for an optional string, rendering `None` as Python
`str.format` does. -/
def pyStrOpt : Option Str → Str
  | none => "None".toList
  | some s => s

/-- The Python exceptions the script can raise. -/
inductive PyErr where
  | typeError
  | valueError
  | indexError
  | keyError
  | attributeError
deriving DecidableEq

/-! ### String literals used by the script -/

def litFILE : Str := "FILE".toList

def litName : Str := "name".toList

def litArtifact : Str := "artifact".toList

def litRepository : Str := "repository".toList

def litSha1 : Str := "sha1".toList

def litSrcSha1 : Str := "src_sha1".toList

def litOldVersion : Str := "old_version".toList

def litMavenJarOpen : Str := "maven_jar(".toList

def litCloseParen : Str := ")".toList

def litPlus : Str := " + ".toList

def litReceived : Str := "received".toList

def litSNAPSHOT : Str := "SNAPSHOT".toList

def litWANDISCO : Str := "WANDISCO".toList

def litASSETS : Str := "_ASSETS".toList

def litJgit : Str := "org.eclipse.jgit".toList

def litVersionSuffix : Str := ".version".toList

def litDot : Str := ".".toList

def litColon : Str := ":".toList

def litMavenCentral : Str := "MAVEN_CENTRAL:".toList

def litIndentHash : Str := "    #".toList

def litEqQuote : Str := " = \"".toList

def litQuoteCommaNl : Str := "\",\n".toList

def litIndent8 : Str := "        ".toList

def litEqSp : Str := " = ".toList

def litCommaNl : Str := ",\n".toList

def litQuoteNl : Str := "\"\n".toList

/-- The `known_repos` table of the script: repository names that may appear
in bazel files, with the literal prefix each one stands for. -/
def known_repos : List (Str × Str) :=
  [("GERRIT".toList, "GERRIT:".toList),
   ("GERRIT_API".toList, "GERRIT_API:".toList),
   ("MAVEN_CENTRAL".toList, "MAVEN_CENTRAL:".toList),
   ("MAVEN_LOCAL".toList, "MAVEN_LOCAL:".toList),
   ("ECLIPSE".toList, "ECLIPSE:".toList),
   ("WANDISCO_ASSETS".toList, "WANDISCO:".toList)]

/-! ### Data structures -/

/-- The `Asset` class: every field is initialised to `None` by `__init__`,
so each is an optional string. -/
structure Asset where
  name : Option Str
  artifact : Option Str
  repository : Option Str
  sha1 : Option Str
  src_sha1 : Option Str
  old_version : Option Str
deriving DecidableEq

/-- `Asset.__init__`: all fields start as `None`. -/
def Asset.init : Asset :=
  ⟨none, none, none, none, none, none⟩

/-- `Asset.__setitem__`: map-style setter that rejects keys not defined as
members by the initializer. -/
def Asset.setItem (a : Asset) (k : Str) (v : Str) : Asset :=
  if k = litName then { a with name := some v }
  else if k = litArtifact then { a with artifact := some v }
  else if k = litRepository then { a with repository := some v }
  else if k = litSha1 then { a with sha1 := some v }
  else if k = litSrcSha1 then { a with src_sha1 := some v }
  else if k = litOldVersion then { a with old_version := some v }
  else a

/-- Python `getattr`, wrapped so that `none` means `hasattr` is false. -/
def Asset.getattrOpt (a : Asset) (k : Str) : Option (Option Str) :=
  if k = litName then some a.name
  else if k = litArtifact then some a.artifact
  else if k = litRepository then some a.repository
  else if k = litSha1 then some a.sha1
  else if k = litSrcSha1 then some a.src_sha1
  else if k = litOldVersion then some a.old_version
  else none

/-- The `AssetGroup` class: a source type (`'FILE'`, `'DIR'` or `'REPO'`),
the source, an ordered list of assets, and the resolved environment (only
set for file-sourced groups). -/
structure AssetGroup where
  source_type : Str
  source : Str
  assets : List Asset
  env : Option (List (Str × Str))
deriving DecidableEq

/-! ### Reconciliation and validation operations -/

/-- The list comprehension inside `make_replacement_set`: one tuple
`(artifact, old-sha, new-sha)` per pair of assets with equal artifact,
different SHA1, and neither SHA1 equal to `None`. -/
def replacement_pairs (g other : AssetGroup) :
    List (Option Str × Option Str × Option Str) :=
  g.assets.flatMap fun a =>
    other.assets.filterMap fun b =>
      if a.artifact = b.artifact ∧ a.sha1 ≠ b.sha1 ∧ a.sha1 ≠ none ∧ b.sha1 ≠ none then
        some (a.artifact, a.sha1, b.sha1)
      else none

/-- `AssetGroup.make_replacement_set`: raises `TypeError` unless `self` is
sourced from a file, otherwise returns the replacement tuples. -/
def AssetGroup.make_replacement_set (g other : AssetGroup) :
    Except PyErr (List (Option Str × Option Str × Option Str)) :=
  if g.source_type ≠ litFILE then Except.error PyErr.typeError
  else Except.ok (replacement_pairs g other)

/-- `AssetGroup.assets_missing_shas`: names of assets with no SHA1. -/
def AssetGroup.assets_missing_shas (g : AssetGroup) : List (Option Str) :=
  g.assets.filterMap fun a => if a.sha1 = none then some a.name else none

/-- `AssetGroup.assets_with_duplicate_shas`: the comprehension over all
ordered pairs of assets of the group whose artifacts differ and whose SHA1
values are equal. -/
def AssetGroup.assets_with_duplicate_shas (g : AssetGroup) :
    List (Option Str × Option Str × Option Str) :=
  g.assets.flatMap fun a =>
    g.assets.filterMap fun b =>
      if a.artifact ≠ b.artifact ∧ a.sha1 = b.sha1 then
        some (a.name, b.name, a.sha1)
      else none

/-- The issue count returned by `AssetGroup.print_validation_summary`: the
number of assets missing a SHA1 plus the number of duplicate-SHA entries
(the printing itself is I/O and not modelled). -/
def AssetGroup.print_validation_summary (g : AssetGroup) : Nat :=
  g.assets_missing_shas.length + g.assets_with_duplicate_shas.length

/-! ### The bazel file scanner (`assets_from_bazel_file`) -/

/-- `parse_property`: split on the delimiter, take the text before the
first delimiter as key (dropping `'#'` characters, then stripping), and the
text between the first and second delimiter as value (truncated at `'#'`,
stripped, with `'"'` and `','` characters dropped). Returns `none` when the
string does not contain the delimiter (Python would raise `IndexError`). -/
def parse_property (s : Str) (delim : Char) : Option (Str × Str) :=
  match pySplit delim s with
  | p0 :: p1 :: _ =>
    some (pyStrip (p0.filter (fun c => c ≠ '#')),
          ((pyStrip ((pySplit '#' p1).headD [])).filter (fun c => c ≠ '"')).filter
            (fun c => c ≠ ','))
  | _ => none

/-- The regex `[^=]+=[^=]+` under `re.match`: at least one character before
the first `'='` and a character other than `'='` directly after it. -/
def matches_assignment (s : Str) : Bool :=
  match pySplit '=' s with
  | p0 :: p1 :: _ => !p0.isEmpty && !p1.isEmpty
  | _ => false

/-- The mutable state of the scanning loop in `assets_from_bazel_file`. -/
structure ScanState where
  assets : List Asset
  env : List (Str × Str)
  current : Option Asset
deriving DecidableEq

/-- One iteration of the scanning loop of `assets_from_bazel_file`: strip
the line, open a fresh asset on `maven_jar(`, close the current asset on
`)`, and treat `key = value` lines as variable declarations (outside a
block) or asset fields (inside a block). -/
def scan_line (st : ScanState) (raw : Str) : ScanState :=
  let line := pyStrip raw
  let st1 := if litMavenJarOpen.isPrefixOf line then { st with current := some Asset.init }
             else st
  let st2 :=
    match st1.current with
    | some a =>
      if line = litCloseParen then { st1 with assets := st1.assets ++ [a], current := none }
      else st1
    | none => st1
  if matches_assignment line then
    match parse_property line '=' with
    | some kv =>
      match st2.current with
      | none => { st2 with env := updAssoc st2.env kv.1 kv.2 }
      | some a => { st2 with current := some (a.setItem kv.1 kv.2) }
    | none => st2
  else st2

/-- The environment-resolution pass of `assets_from_bazel_file`: for each
binding, strip `' + '` tokens, substitute every declared variable's raw
value wherever its name occurs, and override the result with the canonical
`known_repos` literal when the raw value is a known repository name. -/
def resolve_env (env : List (Str × Str)) : List (Str × Str) :=
  env.map fun kv =>
    let updated := env.foldl (fun acc lm => pyReplace acc lm.1 lm.2)
      (pyReplace kv.2 litPlus [])
    (kv.1,
     match lookupA kv.2 known_repos with
     | some canon => canon
     | none => updated)

/-- One step of the per-asset substitution loop of `assets_from_bazel_file`:
substitute one resolved variable into the artifact (after stripping `' + '`)
and the repository fields, skipping fields that are `None` or empty (Python
truthiness). -/
def asset_subst_step (a : Asset) (lm : Str × Str) : Asset :=
  let a1 :=
    match a.artifact with
    | some art =>
      if art ≠ [] then
        { a with artifact := some (pyReplace (pyReplace art litPlus []) lm.1 lm.2) }
      else a
    | none => a
  match a1.repository with
  | some rep =>
    if rep ≠ [] then { a1 with repository := some (pyReplace rep lm.1 lm.2) }
    else a1
  | none => a1

/-- The per-asset resolution of `assets_from_bazel_file`: substitute every
resolved variable into the asset's fields, then canonicalize a repository
that still names a known repository. -/
def resolve_asset (env : List (Str × Str)) (a : Asset) : Asset :=
  let b := env.foldl asset_subst_step a
  match b.repository with
  | some rep =>
    match lookupA rep known_repos with
    | some canon => { b with repository := some canon }
    | none => b
  | none => b

/-- `assets_from_bazel_file`: scan the file's lines, resolve the collected
environment, resolve every scanned asset against it, and return a
file-sourced group carrying the resolved environment. -/
def assets_from_bazel_file (filename : Str) (file_lines : List Str) : AssetGroup :=
  let st := file_lines.foldl scan_line ⟨[], [], none⟩
  let env := resolve_env st.env
  { source_type := litFILE, source := filename,
    assets := st.assets.map (resolve_asset env), env := some env }

/-! ### Repository lookup (`asset_from_repo`) -/

/-- The scan of the failed download command's output in `asset_from_repo`:
the last line starting with `received` provides the new SHA1 (its second
space-separated field; a matching line without one raises `IndexError`). -/
def recv_step (acc : Option Str) (line : Str) : Except PyErr (Option Str) :=
  if litReceived.isPrefixOf line then
    match (pySplit ' ' line).get? 1 with
    | some w => Except.ok (some w)
    | none => Except.error PyErr.indexError
  else Except.ok acc

/-- Fold `recv_step` over the lines of the failure output. -/
def received_sha (output : Str) : Except PyErr (Option Str) :=
  (pySplit '\n' output).foldlM recv_step none

/-- `asset_from_repo`: copy the asset; when the download command fails
(`outcome = some output`) and its output contains a `received` line, set
the copy's SHA1 to the reported digest. The download command itself is the
external collaborator, represented by `outcome` (`none` means the command
succeeded, so no new SHA1 is reported). -/
def asset_from_repo (asset : Asset) (repo_name : Option Str) (outcome : Option Str) :
    Except PyErr Asset :=
  let _repo := match repo_name with
               | none => litMavenCentral
               | some r => if r = [] then litMavenCentral else r
  match asset.artifact with
  | none => Except.error PyErr.attributeError
  | some art =>
    match pySplit ':' art with
    | [_vendor, _nm, _version] =>
      let new_asset := asset
      match outcome with
      | none => Except.ok new_asset
      | some output =>
        match received_sha output with
        | Except.error e => Except.error e
        | Except.ok none => Except.ok new_asset
        | Except.ok (some new_sha) => Except.ok { new_asset with sha1 := some new_sha }
    | _ => Except.error PyErr.valueError

/-! ### Version reconciliation (`process_assets`) -/

/-- The property key `process_assets` builds: `group.artifact.version`,
except that the designated jgit artifact id is used alone. -/
def mk_property_key (group_id artifact_id : Str) : Str :=
  (if artifact_id = litJgit then artifact_id else group_id ++ litDot ++ artifact_id) ++
    litVersionSuffix

/-- The updated asset `process_assets` builds before re-resolving its
digest: the authoritative version substituted into the coordinate, the old
version recorded. -/
def update_candidate (a : Asset) (group_id artifact_id property_version version : Str) :
    Asset :=
  { a with
    artifact := some (group_id ++ litColon ++ artifact_id ++ litColon ++ property_version),
    old_version := some version }

/-- One iteration of the inner loop of `process_assets` over a single
asset, threading the `(assets_to_update, skipped_assets)` dictionaries. -/
def process_asset_step (properties : List (Str × Str)) (check : Bool)
    (outcomes : Asset → Option Str → Option Str)
    (st : List (Option Str × Asset) × List (Option Str × Asset)) (asset : Asset) :
    Except PyErr (List (Option Str × Asset) × List (Option Str × Asset)) :=
  match asset.artifact with
  | none => Except.error PyErr.attributeError
  | some art =>
    let parts := pySplit ':' art
    match parts.get? 0, parts.get? 1, parts.get? 2 with
    | some group_id, some artifact_id, some version =>
      let property_key := mk_property_key group_id artifact_id
      match lookupA property_key properties with
      | some property_version =>
        if version = property_version then
          Except.ok (st.1, updAssoc st.2 asset.name asset)
        else
          let na0 := update_candidate asset group_id artifact_id property_version version
          match asset_from_repo na0 na0.repository (outcomes na0 na0.repository) with
          | Except.error e => Except.error e
          | Except.ok new_asset =>
            if artifact_id = litJgit then
              Except.ok (updAssoc st.1 (some artifact_id) new_asset, st.2)
            else
              Except.ok (updAssoc st.1 new_asset.name new_asset, st.2)
      | none => Except.ok st
    | _, _, _ => Except.error PyErr.indexError

/-- `process_assets`: iterate all groups and their assets, producing the
dictionaries of assets to update and of skipped assets. The `check` flag
only alters printing, and `outcomes` stands for the external download
collaborator consulted by `asset_from_repo`. -/
def process_assets (properties : List (Str × Str)) (build_file_assets : List AssetGroup)
    (check : Bool) (outcomes : Asset → Option Str → Option Str) :
    Except PyErr (List (Option Str × Asset) × List (Option Str × Asset)) :=
  build_file_assets.foldlM
    (fun st g => g.assets.foldlM (process_asset_step properties check outcomes) st)
    ([], [])

/-! ### The patch writer (`update_bazel_file` and `replace_shas_in_file`) -/

/-- The regex `.*:.*\+` under `re.match`: the value contains a `':'` with a
`'+'` somewhere after it. -/
def colon_then_plus (v : Str) : Bool :=
  (v.dropWhile (fun c => c ≠ ':')).any (fun c => c = '+')

/-- The mutable state of the line loop in `update_bazel_file`. -/
structure UpdState where
  env : List (Str × Str)
  env_line : List (Str × Nat)
  updated_assets : List (Option Str × Asset)
  current : Option Asset
  data : List Str
deriving DecidableEq

/-- One iteration of the line loop of `update_bazel_file` at index `count`:
track blocks and variables, and for a field of an asset selected for update
rewrite either the referenced variable's declaration line or the field line
itself (commenting out a SHA1 whose new coordinate is a snapshot). -/
def update_line (assets_to_update : List (Option Str × Asset)) (st : UpdState)
    (count : Nat) : Except PyErr UpdState :=
  let original_line := st.data.getD count []
  let line := pyStrip original_line
  if litMavenJarOpen.isPrefixOf line then
    Except.ok { st with current := some Asset.init }
  else if st.current.isSome ∧ line = litCloseParen then
    Except.ok { st with current := none }
  else if matches_assignment line then
    match parse_property line '=' with
    | none => Except.ok st
    | some kv =>
      let k := kv.1
      let v := kv.2
      match st.current with
      | none =>
        Except.ok { st with env := updAssoc st.env k v,
                            env_line := updAssoc st.env_line k count }
      | some ca0 =>
        let ca := ca0.setItem k v
        let st1 := { st with current := some ca }
        match lookupA ca.name assets_to_update with
        | none => Except.ok { st1 with data := st1.data.set count original_line }
        | some new_asset =>
          if k = litArtifact ∧ colon_then_plus v then
            match (pySplit '+' v).get? 1 with
            | none => Except.error PyErr.indexError
            | some rawvar =>
              let env_variable := pyStrip rawvar
              match lookupA env_variable st1.env_line with
              | none => Except.error PyErr.keyError
              | some line_num =>
                match new_asset.artifact with
                | none => Except.error PyErr.attributeError
                | some nart =>
                  match (pySplit ':' nart).get? 2 with
                  | none => Except.error PyErr.indexError
                  | some version =>
                    match lookupA env_variable st1.env with
                    | none => Except.error PyErr.keyError
                    | some env_val =>
                      let st2 :=
                        if line_num ≠ 0 ∧ env_val ≠ version then
                          let decl_line := st1.data.getD line_num []
                          let indent_amount :=
                            (decl_line.takeWhile (fun c => c = ' ')).length
                          { st1 with
                            data := st1.data.set line_num
                              (List.replicate indent_amount ' ' ++ env_variable ++
                                litEqQuote ++ version ++ litQuoteNl),
                            updated_assets :=
                              updAssoc st1.updated_assets new_asset.name new_asset }
                        else st1
                      Except.ok { st2 with data := st2.data.set count original_line }
          else
            match new_asset.getattrOpt k with
            | none => Except.ok { st1 with data := st1.data.set count original_line }
            | some new_val =>
              if some v ≠ new_val then
                match
                  (if k = litSha1 then
                     (match new_asset.artifact with
                      | none => Except.error PyErr.typeError
                      | some nart => Except.ok (occursIn litSNAPSHOT nart))
                   else Except.ok false : Except PyErr Bool)
                with
                | Except.error e => Except.error e
                | Except.ok is_snap =>
                  if is_snap then
                    match new_val with
                    | none => Except.error PyErr.typeError
                    | some nv =>
                      Except.ok { st1 with
                        data := st1.data.set count
                          (litIndentHash ++ k ++ litEqQuote ++ nv ++ litQuoteCommaNl) }
                  else if k = litRepository then
                    match new_val with
                    | none => Except.error PyErr.typeError
                    | some nv0 =>
                      let nv1 := if occursIn litColon nv0 then
                                   nv0.filter (fun c => c ≠ ':')
                                 else nv0
                      let nv2 := if nv1 = litWANDISCO then nv1 ++ litASSETS else nv1
                      Except.ok { st1 with
                        data := st1.data.set count
                          (litIndent8 ++ k ++ litEqSp ++ nv2 ++ litCommaNl) }
                  else
                    let st2 :=
                      if k = litArtifact then
                        { st1 with
                          updated_assets :=
                            updAssoc st1.updated_assets new_asset.name new_asset }
                      else st1
                    Except.ok { st2 with
                      data := st2.data.set count
                        (litIndent8 ++ k ++ litEqQuote ++ pyStrOpt new_val ++
                          litQuoteCommaNl) }
              else Except.ok { st1 with data := st1.data.set count original_line }
  else Except.ok st

/-- `update_bazel_file`: run the line loop over every index of the file's
line buffer and return the rewritten buffer with the dictionary of updated
assets. -/
def update_bazel_file (assets_to_update : List (Option Str × Asset))
    (file_lines : List Str) : Except PyErr (List Str × List (Option Str × Asset)) :=
  match (List.range file_lines.length).foldlM (update_line assets_to_update)
      (⟨[], [], [], none, file_lines⟩ : UpdState) with
  | Except.error e => Except.error e
  | Except.ok st => Except.ok (st.data, st.updated_assets)

/-- `replace_shas_in_file`: compute the replacement set (raising when
`groupA` is not file-sourced) and apply one `sed` invocation per
replacement to the file contents. The `sed` utility is the external
collaborator, passed as a function of the old digest, the new digest, the
`enable_shas` flag and the current file contents. -/
def replace_shas_in_file (sed : Option Str → Option Str → Bool → Str → Str)
    (groupA groupB : AssetGroup) (enable_shas : Bool) (content : Str) :
    Except PyErr Str :=
  match groupA.make_replacement_set groupB with
  | Except.error e => Except.error e
  | Except.ok replacements =>
    Except.ok (replacements.foldl (fun text r => sed r.2.1 r.2.2 enable_shas text) content)

/-! ### Helper lemmas about the Python string primitives -/

/-- The empty pattern occurs in every string. -/
theorem occursIn_nil (s : Str) : occursIn [] s = true := by
  cases s <;> simp [occursIn, List.isPrefixOf]

/-- A list is always a prefix of itself (boolean version). -/
theorem isPrefixOf_self (l : Str) : l.isPrefixOf l = true := by
  induction l with
  | nil => rfl
  | cons c rest ih => simp [List.isPrefixOf, ih]

/-- `replGo` maps the empty string to the empty string at any fuel. -/
theorem replGo_nil (p r : Str) (fuel : Nat) : replGo p r fuel [] = [] := by
  cases fuel <;> rfl

/-- When the pattern does not occur, `replGo` is the identity. -/
theorem replGo_id (p r : Str) :
    ∀ (fuel : Nat) (s : Str), occursIn p s = false → replGo p r fuel s = s := by
  intro fuel
  induction fuel with
  | zero => intro s _; rfl
  | succ n ih =>
    intro s h
    cases s with
    | nil => rfl
    | cons c rest =>
      simp only [occursIn, Bool.or_eq_false_iff] at h
      simp only [replGo, h.1, Bool.false_eq_true, if_false, List.cons.injEq, true_and]
      exact ih rest h.2

/-- Python `replace` leaves a string without an occurrence of the pattern
unchanged. -/
theorem pyReplace_id (s p r : Str) (h : occursIn p s = false) :
    pyReplace s p r = s := by
  cases p with
  | nil => rw [occursIn_nil] at h; exact absurd h (by simp)
  | cons c cs => exact replGo_id _ _ _ _ h

/-- Python `replace` rewrites the whole string when it equals the nonempty
pattern. -/
theorem pyReplace_self (p r : Str) (hp : p ≠ []) : pyReplace p p r = r := by
  cases p with
  | nil => exact absurd rfl hp
  | cons c cs =>
    show replGo (c :: cs) r (c :: cs).length (c :: cs) = r
    rw [List.length_cons]
    simp only [replGo, isPrefixOf_self, if_true]
    rw [List.drop_length, replGo_nil, List.append_nil]

/-- A fold whose step fixes the accumulator returns the accumulator. -/
theorem foldl_fixed {α β : Type _} (f : α → β → α) (a : α) :
    ∀ l : List β, (∀ b ∈ l, f a b = a) → l.foldl f a = a := by
  intro l
  induction l with
  | nil => intro _; rfl
  | cons x xs ih =>
    intro h
    rw [List.foldl_cons, h x (by simp)]
    exact ih fun b hb => h b (by simp [hb])

/-- Mapping a function that fixes every element is the identity. -/
theorem map_id_of {α : Type _} (f : α → α) :
    ∀ l : List α, (∀ x ∈ l, f x = x) → l.map f = l := by
  intro l
  induction l with
  | nil => intro _; rfl
  | cons x xs ih =>
    intro h
    rw [List.map_cons, h x (by simp), ih fun y hy => h y (by simp [hy])]

/-! ### C1: the replacement set -/

/-- C1. For a file-sourced left-hand group, `make_replacement_set` returns
exactly the tuples `(artifact, old-sha, new-sha)` for the pairs of records
(one from each group) with equal artifact, differing SHA1, and neither SHA1
absent; no pair with an absent digest on either side contributes. -/
theorem make_replacement_set_pairs (g other : AssetGroup)
    (hFILE : g.source_type = litFILE) :
    g.make_replacement_set other = Except.ok (replacement_pairs g other) ∧
    ∀ t, t ∈ replacement_pairs g other ↔
      ∃ a ∈ g.assets, ∃ b ∈ other.assets,
        a.artifact = b.artifact ∧ a.sha1 ≠ b.sha1 ∧ a.sha1 ≠ none ∧ b.sha1 ≠ none ∧
        t = (a.artifact, a.sha1, b.sha1) := by
  constructor
  · simp [AssetGroup.make_replacement_set, hFILE]
  · intro t
    simp only [replacement_pairs, List.mem_flatMap, List.mem_filterMap]
    constructor
    · rintro ⟨a, ha, b, hb, hif⟩
      by_cases hc : a.artifact = b.artifact ∧ a.sha1 ≠ b.sha1 ∧ a.sha1 ≠ none ∧ b.sha1 ≠ none
      · rw [if_pos hc] at hif
        exact ⟨a, ha, b, hb, hc.1, hc.2.1, hc.2.2.1, hc.2.2.2, (Option.some.inj hif).symm⟩
      · rw [if_neg hc] at hif
        exact absurd hif (by simp)
    · rintro ⟨a, ha, b, hb, h1, h2, h3, h4, ht⟩
      exact ⟨a, ha, b, hb, by rw [if_pos ⟨h1, h2, h3, h4⟩, ht]⟩

/-- A file-sourced group holding one asset with digest `aaa`. -/
def fileA : AssetGroup :=
  { source_type := litFILE, source := "WORKSPACE".toList,
    assets := [⟨some ("j".toList), some ("com.x:j:1.0".toList), none,
                some ("aaa".toList), none, none⟩],
    env := none }

/-- A repository group holding the same coordinate with digest `bbb`. -/
def repoB : AssetGroup :=
  { source_type := "REPO".toList, source := "MAVEN_LOCAL:".toList,
    assets := [⟨some ("j".toList), some ("com.x:j:1.0".toList), none,
                some ("bbb".toList), none, none⟩],
    env := none }

/-- Witness for C1 at concrete groups. -/
theorem make_replacement_set_pairs_witness :
    fileA.make_replacement_set repoB = Except.ok (replacement_pairs fileA repoB) ∧
    (some ("com.x:j:1.0".toList), some ("aaa".toList), some ("bbb".toList)) ∈
      replacement_pairs fileA repoB :=
  ⟨(make_replacement_set_pairs fileA repoB (by decide)).1,
   ((make_replacement_set_pairs fileA repoB (by decide)).2 _).mpr (by decide)⟩

/-! ### C3: the file-source guard -/

/-- C3. `make_replacement_set` succeeds exactly when the left-hand group is
file-sourced; otherwise it raises. -/
theorem make_replacement_set_requires_file (g other : AssetGroup) :
    (∃ l, g.make_replacement_set other = Except.ok l) ↔ g.source_type = litFILE := by
  unfold AssetGroup.make_replacement_set
  by_cases h : g.source_type = litFILE
  · simp [h]
  · simp [h]

/-! ### C2: duplicate-digest reporting -/

/-- C2 (amended). Membership in `assets_with_duplicate_shas` is exactly
given by the ordered pairs of assets with differing artifacts and equal
SHA1 values — including pairs in both orientations, and pairs where both
digests are absent. -/
theorem assets_with_duplicate_shas_pairs (g : AssetGroup)
    (t : Option Str × Option Str × Option Str) :
    t ∈ g.assets_with_duplicate_shas ↔
      ∃ a ∈ g.assets, ∃ b ∈ g.assets,
        a.artifact ≠ b.artifact ∧ a.sha1 = b.sha1 ∧ t = (a.name, b.name, a.sha1) := by
  simp only [AssetGroup.assets_with_duplicate_shas, List.mem_flatMap, List.mem_filterMap]
  constructor
  · rintro ⟨a, ha, b, hb, hif⟩
    by_cases hc : a.artifact ≠ b.artifact ∧ a.sha1 = b.sha1
    · rw [if_pos hc] at hif
      exact ⟨a, ha, b, hb, hc.1, hc.2, (Option.some.inj hif).symm⟩
    · rw [if_neg hc] at hif
      exact absurd hif (by simp)
  · rintro ⟨a, ha, b, hb, h1, h2, ht⟩
    exact ⟨a, ha, b, hb, by rw [if_pos ⟨h1, h2⟩, ht]⟩

/-- Two distinct coordinates sharing the digest `ccc`. -/
def dup_group : AssetGroup :=
  { source_type := litFILE, source := "WORKSPACE".toList,
    assets := [⟨some ("a".toList), some ("com.x:a:1.0".toList), none,
                some ("ccc".toList), none, none⟩,
               ⟨some ("b".toList), some ("com.x:b:1.0".toList), none,
                some ("ccc".toList), none, none⟩],
    env := none }

/-- Two distinct coordinates both lacking a digest. -/
def digestless_group : AssetGroup :=
  { source_type := litFILE, source := "WORKSPACE".toList,
    assets := [⟨some ("a".toList), some ("com.x:a:1.0".toList), none, none, none, none⟩,
               ⟨some ("b".toList), some ("com.x:b:1.0".toList), none, none, none, none⟩],
    env := none }

/-- Counterexample to C2 as stated: one shared digest yields two entries
(one per orientation), so the pair contributes 2 — not 1 — to the issue
count, and two records that both lack a digest are reported as duplicates. -/
theorem duplicate_sha_pair_counted_twice :
    dup_group.assets_with_duplicate_shas.length = 2 ∧
    dup_group.print_validation_summary = 2 ∧
    digestless_group.assets_with_duplicate_shas ≠ [] := by decide

/-! ### C5: idempotence of environment resolution -/

/-- The three-variable chain `C = "1.0"`, `B = "C"`, `A = "B"`, declared in
this order. -/
def chain_env : List (Str × Str) :=
  [("C".toList, "1.0".toList), ("B".toList, "C".toList), ("A".toList, "B".toList)]

/-- Counterexample to C5 as stated: one resolution pass maps the chain
environment to `C = "1.0"`, `B = "1.0"`, `A = "C"`, and a second pass
changes `A` again to `"1.0"` — re-resolving an already-resolved environment
is not a no-op. -/
theorem resolve_env_not_idempotent :
    resolve_env (resolve_env chain_env) ≠ resolve_env chain_env := by decide

/-- C5 (amended). The resolution pass fixes every environment whose
bindings contain no concatenation token, contain no declared variable's
name, and whose values are not raw known-repository names — in particular
re-resolution is a no-op exactly on such resolved environments. -/
theorem resolve_env_idempotent_when_clean (E : List (Str × Str))
    (hplus : ∀ kv ∈ E, occursIn litPlus kv.2 = false)
    (hclean : ∀ kv ∈ E, ∀ lm ∈ E, occursIn lm.1 kv.2 = false)
    (hrepo : ∀ kv ∈ E, lookupA kv.2 known_repos = none) :
    resolve_env E = E := by
  unfold resolve_env
  apply map_id_of
  intro kv hkv
  have h0 : pyReplace kv.2 litPlus [] = kv.2 := pyReplace_id _ _ _ (hplus kv hkv)
  have h1 : E.foldl (fun acc lm => pyReplace acc lm.1 lm.2) kv.2 = kv.2 :=
    foldl_fixed _ _ E fun lm hlm => pyReplace_id _ _ _ (hclean kv hkv lm hlm)
  simp only [hrepo kv hkv, h0, h1]

/-- An already-clean environment for the C5 witness. -/
def clean_env : List (Str × Str) :=
  [("GERRIT_VER".toList, "2.16.3".toList), ("JGIT_VER".toList, "5.1.13".toList)]

/-- Witness for the amended C5 at a concrete environment. -/
theorem resolve_env_idempotent_witness : resolve_env clean_env = clean_env :=
  resolve_env_idempotent_when_clean clean_env (by decide) (by decide) (by decide)

/-! ### C4: the fixed point of variable resolution in record fields -/

/-- A bazel file declaring the chain `C`, `B`, `A` and one asset whose
artifact refers to `A`. -/
def chain_lines : List Str :=
  ["C = \"1.0\"".toList, "B = \"C\"".toList, "A = \"B\"".toList,
   "maven_jar(".toList, "name = \"x\"".toList, "artifact = \"A\"".toList,
   ")".toList]

/-- Counterexample to C4 as stated: after `assets_from_bazel_file`
completes its resolution post-pass on `chain_lines`, the only asset's
artifact still contains the name of a variable that is declared in the
environment (the artifact resolves to `"C"` while `C = "1.0"` is
declared), so resolution does not reach the claimed fixed point for
chained references. -/
theorem resolution_leaves_declared_name :
    ∃ a ∈ (assets_from_bazel_file ("WORKSPACE".toList) chain_lines).assets,
      a.artifact.isSome ∧
      ∃ kv ∈ ((assets_from_bazel_file ("WORKSPACE".toList) chain_lines).env.getD []),
        occursIn kv.1 (a.artifact.getD []) = true := by decide

/-- The action of one substitution step on the artifact field alone. -/
def art_step (f : Option Str) (lm : Str × Str) : Option Str :=
  match f with
  | some art =>
    if art ≠ [] then some (pyReplace (pyReplace art litPlus []) lm.1 lm.2) else some art
  | none => none

/-- The action of one substitution step on the repository field alone. -/
def rep_step (f : Option Str) (lm : Str × Str) : Option Str :=
  match f with
  | some rep => if rep ≠ [] then some (pyReplace rep lm.1 lm.2) else some rep
  | none => none

/-- One substitution step acts independently on the artifact and repository
fields and leaves every other field unchanged. -/
theorem asset_subst_step_proj (a : Asset) (lm : Str × Str) :
    asset_subst_step a lm =
      { a with artifact := art_step a.artifact lm,
               repository := rep_step a.repository lm } := by
  cases a with
  | mk nm art rep sh ssh ov =>
    cases art with
    | none =>
      cases rep with
      | none => rfl
      | some r =>
        by_cases hr : r ≠ [] <;>
          simp [asset_subst_step, art_step, rep_step, hr]
    | some x =>
      cases rep with
      | none =>
        by_cases hx : x ≠ [] <;>
          simp [asset_subst_step, art_step, rep_step, hx]
      | some r =>
        by_cases hx : x ≠ [] <;> by_cases hr : r ≠ [] <;>
          simp [asset_subst_step, art_step, rep_step, hx, hr]

/-- The whole substitution fold acts componentwise on the two fields. -/
theorem subst_fold_proj (E : List (Str × Str)) :
    ∀ a : Asset,
      E.foldl asset_subst_step a =
        { a with artifact := E.foldl art_step a.artifact,
                 repository := E.foldl rep_step a.repository } := by
  induction E with
  | nil => intro a; cases a; rfl
  | cons lm rest ih =>
    intro a
    rw [List.foldl_cons, List.foldl_cons, List.foldl_cons, ih, asset_subst_step_proj]

/-- Splitting the artifact fold at the entry of the referenced variable:
earlier entries leave the reference unchanged, the entry expands it, later
entries leave the value unchanged. -/
theorem art_fold_split (k v : Str) (P S : List (Str × Str))
    (hk : k ≠ []) (hv : v ≠ [])
    (hpk : occursIn litPlus k = false) (hpv : occursIn litPlus v = false)
    (hP : ∀ lm ∈ P, occursIn lm.1 k = false)
    (hS : ∀ lm ∈ S, occursIn lm.1 v = false) :
    (P ++ (k, v) :: S).foldl art_step (some k) = some v := by
  rw [List.foldl_append]
  have h1 : P.foldl art_step (some k) = some k :=
    foldl_fixed _ _ P fun lm hlm => by
      simp [art_step, hk, pyReplace_id _ _ _ hpk, pyReplace_id _ _ _ (hP lm hlm)]
  rw [h1, List.foldl_cons]
  have h2 : art_step (some k) (k, v) = some v := by
    simp [art_step, hk, pyReplace_id _ _ _ hpk, pyReplace_self _ _ hk]
  rw [h2]
  exact foldl_fixed _ _ S fun lm hlm => by
    simp [art_step, hv, pyReplace_id _ _ _ hpv, pyReplace_id _ _ _ (hS lm hlm)]

/-- The analogous split for the repository fold. -/
theorem rep_fold_split (k v : Str) (P S : List (Str × Str))
    (hk : k ≠ []) (hv : v ≠ [])
    (hP : ∀ lm ∈ P, occursIn lm.1 k = false)
    (hS : ∀ lm ∈ S, occursIn lm.1 v = false) :
    (P ++ (k, v) :: S).foldl rep_step (some k) = some v := by
  rw [List.foldl_append]
  have h1 : P.foldl rep_step (some k) = some k :=
    foldl_fixed _ _ P fun lm hlm => by
      simp [rep_step, hk, pyReplace_id _ _ _ (hP lm hlm)]
  rw [h1, List.foldl_cons]
  have h2 : rep_step (some k) (k, v) = some v := by
    simp [rep_step, hk, pyReplace_self _ _ hk]
  rw [h2]
  exact foldl_fixed _ _ S fun lm hlm => by
    simp [rep_step, hv, pyReplace_id _ _ _ (hS lm hlm)]

/-- C4 (amended). The resolution post-pass does reach a fixed point for
direct references: when the declared names are pairwise non-overlapping,
the resolved environment's values contain no declared name and no
concatenation token, and an asset's artifact and repository fields each
consist exactly of a (distinct) declared variable's name, the pass expands
both fields to the corresponding resolved values — in which, by hypothesis,
no declared name occurs. Chained references need not reach the fixed point
(see the counterexample). -/
theorem resolve_asset_direct_reference (E : List (Str × Str)) (a : Asset)
    (k₀ v₀ k₁ v₁ : Str)
    (hnodup : (E.map Prod.fst).Nodup)
    (hnil : ∀ lm ∈ E, lm.1 ≠ ([] : Str))
    (hpair : ∀ lm ∈ E, ∀ lm' ∈ E, lm.1 ≠ lm'.1 → occursIn lm.1 lm'.1 = false)
    (hclean : ∀ lm ∈ E, ∀ kv ∈ E, occursIn lm.1 kv.2 = false)
    (hplusv : ∀ kv ∈ E, occursIn litPlus kv.2 = false)
    (hm0 : (k₀, v₀) ∈ E) (hm1 : (k₁, v₁) ∈ E) (hkk : k₀ ≠ k₁)
    (hplus0 : occursIn litPlus k₀ = false)
    (hv0 : v₀ ≠ []) (hv1 : v₁ ≠ [])
    (hart : a.artifact = some k₀) (hrep : a.repository = some k₁)
    (hrepo : lookupA v₁ known_repos = none) :
    (resolve_asset E a).artifact = some v₀ ∧
    (resolve_asset E a).repository = some v₁ := by
  have hk0 : k₀ ≠ [] := hnil _ hm0
  have hk1 : k₁ ≠ [] := hnil _ hm1
  have hartfold : E.foldl art_step (some k₀) = some v₀ := by
    obtain ⟨P, S, hE⟩ := List.append_of_mem hm0
    have hnd := hnodup
    rw [hE] at hnd
    simp only [List.map_append, List.map_cons] at hnd
    rw [List.nodup_append] at hnd
    rw [hE]
    apply art_fold_split k₀ v₀ P S hk0 hv0 hplus0 (hplusv _ hm0)
    · intro lm hlm
      have hlmE : lm ∈ E := by rw [hE]; exact List.mem_append_left _ hlm
      have hne : lm.1 ≠ (k₀, v₀).1 := by
        intro hc
        have : lm.1 ∈ P.map Prod.fst := List.mem_map_of_mem _ hlm
        rw [hc] at this
        exact hnd.2.2 this (List.mem_cons_self _ _)
      exact hpair lm hlmE (k₀, v₀) hm0 hne
    · intro lm hlm
      have hlmE : lm ∈ E := by
        rw [hE]; exact List.mem_append_right _ (List.mem_cons_of_mem _ hlm)
      exact hclean lm hlmE (k₀, v₀) hm0
  have hrepfold : E.foldl rep_step (some k₁) = some v₁ := by
    obtain ⟨P, S, hE⟩ := List.append_of_mem hm1
    have hnd := hnodup
    rw [hE] at hnd
    simp only [List.map_append, List.map_cons] at hnd
    rw [List.nodup_append] at hnd
    rw [hE]
    apply rep_fold_split k₁ v₁ P S hk1 hv1
    · intro lm hlm
      have hlmE : lm ∈ E := by rw [hE]; exact List.mem_append_left _ hlm
      have hne : lm.1 ≠ (k₁, v₁).1 := by
        intro hc
        have : lm.1 ∈ P.map Prod.fst := List.mem_map_of_mem _ hlm
        rw [hc] at this
        exact hnd.2.2 this (List.mem_cons_self _ _)
      exact hpair lm hlmE (k₁, v₁) hm1 hne
    · intro lm hlm
      have hlmE : lm ∈ E := by
        rw [hE]; exact List.mem_append_right _ (List.mem_cons_of_mem _ hlm)
      exact hclean lm hlmE (k₁, v₁) hm1
  have hb : E.foldl asset_subst_step a =
      { a with artifact := some v₀, repository := some v₁ } := by
    rw [subst_fold_proj, hart, hrep, hartfold, hrepfold]
  unfold resolve_asset
  rw [hb]
  simp [hrepo]

/-- An environment with one version variable and one repository variable. -/
def direct_env : List (Str × Str) :=
  [("VER".toList, "1.2.3".toList), ("REPO".toList, "MAVEN_LOCAL:".toList)]

/-- An asset whose artifact and repository fields reference the two
declared variables directly. -/
def direct_asset : Asset :=
  ⟨some ("gerrit-gitms-interface".toList), some ("VER".toList),
   some ("REPO".toList), none, none, none⟩

/-- Witness for the amended C4 at a concrete environment and asset. -/
theorem resolve_asset_direct_reference_witness :
    (resolve_asset direct_env direct_asset).artifact = some ("1.2.3".toList) ∧
    (resolve_asset direct_env direct_asset).repository = some ("MAVEN_LOCAL:".toList) :=
  resolve_asset_direct_reference direct_env direct_asset
    ("VER".toList) ("1.2.3".toList) ("REPO".toList) ("MAVEN_LOCAL:".toList)
    (by decide) (by decide) (by decide) (by decide) (by decide) (by decide)
    (by decide) (by decide) (by decide) (by decide) (by decide) (by decide)
    (by decide) (by decide)

/-! ### Lemmas about `pySplit` -/

/-- Splitting never yields an empty list of chunks. -/
theorem pySplit_ne_nil (sep : Char) (s : Str) : pySplit sep s ≠ [] := by
  cases s with
  | nil => simp [pySplit]
  | cons c rest =>
    simp only [pySplit]
    split <;> simp

/-- Splitting a string without the separator yields one chunk. -/
theorem pySplit_no_sep (sep : Char) : ∀ a : Str, sep ∉ a → pySplit sep a = [a] := by
  intro a
  induction a with
  | nil => intro _; rfl
  | cons c rest ih =>
    intro h
    have hc : ¬c = sep := fun hc => h (hc ▸ List.mem_cons_self _ _)
    have hrest : sep ∉ rest := fun hm => h (List.mem_cons_of_mem _ hm)
    simp [pySplit, ih hrest, hc]

/-- Splitting at the first separator: the part before it (free of the
separator) becomes the first chunk. -/
theorem pySplit_append (sep : Char) : ∀ (a b : Str), sep ∉ a →
    pySplit sep (a ++ sep :: b) = a :: pySplit sep b := by
  intro a
  induction a with
  | nil => intro b _; simp [pySplit]
  | cons c rest ih =>
    intro b h
    have hc : ¬c = sep := fun hc => h (hc ▸ List.mem_cons_self _ _)
    have hrest : sep ∉ rest := fun hm => h (List.mem_cons_of_mem _ hm)
    simp [pySplit, ih b hrest, hc]

/-! ### C9: property parsing of disabled lines -/

/-- C9. For a line made of a delimiter-free key part, the delimiter `'='`,
and a value part (at least one character on each side), `parse_property`
returns the key with `'#'` characters removed and whitespace stripped, and
the value — read up to any further delimiter — truncated at a trailing
`'#'` comment, stripped, and with `'"'` and `','` characters removed; and
prefixing the line with the disabling comment marker `'#'` yields exactly
the same pair. -/
theorem parse_property_disabled_line (a b : Str)
    (ha : '=' ∉ a) (hane : a ≠ []) (hbne : b ≠ []) :
    parse_property ('#' :: (a ++ '=' :: b)) '=' = parse_property (a ++ '=' :: b) '=' ∧
    parse_property (a ++ '=' :: b) '=' =
      some (pyStrip (a.filter (fun c => c ≠ '#')),
            ((pyStrip ((pySplit '#' ((pySplit '=' b).headD [])).headD [])).filter
              (fun c => c ≠ '"')).filter (fun c => c ≠ ',')) := by
  obtain ⟨p1, t, hbt⟩ := List.exists_cons_of_ne_nil (pySplit_ne_nil '=' b)
  have h2 : pySplit '=' (a ++ '=' :: b) = a :: p1 :: t := by
    rw [pySplit_append _ _ _ ha, hbt]
  have h3 : pySplit '=' (('#' :: a) ++ '=' :: b) = ('#' :: a) :: p1 :: t := by
    rw [pySplit_append, hbt]
    simp [ha]
  constructor
  · have hsh : ('#' :: (a ++ '=' :: b)) = ('#' :: a) ++ '=' :: b := by simp
    rw [hsh]
    unfold parse_property
    rw [h2, h3]
    simp [List.filter]
  · unfold parse_property
    rw [h2, hbt]
    simp

/-- The key part of the C9 witness line. -/
def w9key : Str := "sha1 ".toList

/-- The value part of the C9 witness line, with a trailing comment. -/
def w9val : Str := " \"b8f\", # legacy".toList

/-- Witness for C9 at a concrete disabled digest line. -/
theorem parse_property_disabled_line_witness :
    parse_property ('#' :: (w9key ++ '=' :: w9val)) '=' =
      parse_property (w9key ++ '=' :: w9val) '=' ∧
    parse_property (w9key ++ '=' :: w9val) '=' =
      some (pyStrip (w9key.filter (fun c => c ≠ '#')),
            ((pyStrip ((pySplit '#' ((pySplit '=' w9val).headD [])).headD [])).filter
              (fun c => c ≠ '"')).filter (fun c => c ≠ ',')) :=
  parse_property_disabled_line w9key w9val (by decide) (by decide) (by decide)

/-! ### C7: empty replacement set leaves the file unchanged -/

/-- C7. When parsing a manifest and diffing it against a reference group
yields no replacement (no pair of equal-coordinate records with two present
and differing digests), `replace_shas_in_file` returns the manifest's
contents unchanged, byte for byte, whatever the external `sed` collaborator
would do. -/
theorem empty_replacement_set_rewrite_identity
    (sed : Option Str → Option Str → Bool → Str → Str)
    (filename : Str) (file_lines : List Str) (groupB : AssetGroup)
    (enable_shas : Bool) (content : Str)
    (h : ∀ a ∈ (assets_from_bazel_file filename file_lines).assets,
         ∀ b ∈ groupB.assets,
           ¬(a.artifact = b.artifact ∧ a.sha1 ≠ b.sha1 ∧ a.sha1 ≠ none ∧ b.sha1 ≠ none)) :
    replace_shas_in_file sed (assets_from_bazel_file filename file_lines) groupB
      enable_shas content = Except.ok content := by
  have hFILE : (assets_from_bazel_file filename file_lines).source_type = litFILE := rfl
  have hempty : replacement_pairs (assets_from_bazel_file filename file_lines) groupB = [] := by
    apply List.eq_nil_iff_forall_not_mem.mpr
    intro t ht
    simp only [replacement_pairs, List.mem_flatMap, List.mem_filterMap] at ht
    obtain ⟨a, ha, b, hb, hif⟩ := ht
    by_cases hc : a.artifact = b.artifact ∧ a.sha1 ≠ b.sha1 ∧ a.sha1 ≠ none ∧ b.sha1 ≠ none
    · exact h a ha b hb hc
    · rw [if_neg hc] at hif
      exact absurd hif (by simp)
  have hmrs : (assets_from_bazel_file filename file_lines).make_replacement_set groupB =
      Except.ok [] := by
    unfold AssetGroup.make_replacement_set
    rw [if_neg (fun hne => hne hFILE), hempty]
  unfold replace_shas_in_file
  rw [hmrs]
  rfl

/-- A manifest declaring one asset whose digest agrees with the reference. -/
def agree_lines : List Str :=
  ["maven_jar(".toList, "name = \"j\"".toList,
   "artifact = \"com.x:j:1.0\"".toList, "sha1 = \"aaa\"".toList, ")".toList]

/-- A reference group carrying the same coordinate and the same digest. -/
def agree_ref : AssetGroup :=
  { source_type := "DIR".toList, source := "store".toList,
    assets := [⟨some ("j".toList), some ("com.x:j:1.0".toList), none,
                some ("aaa".toList), none, none⟩],
    env := none }

/-- Witness for C7 at a concrete manifest and reference group. -/
theorem empty_replacement_set_rewrite_identity_witness :
    replace_shas_in_file (fun _ _ _ text => text)
      (assets_from_bazel_file ("WORKSPACE".toList) agree_lines) agree_ref
      false ("file contents".toList) = Except.ok ("file contents".toList) :=
  empty_replacement_set_rewrite_identity (fun _ _ _ text => text)
    ("WORKSPACE".toList) agree_lines agree_ref false ("file contents".toList)
    (by decide)

/-! ### C10: `asset_from_repo` is a frame-preserving copy -/

/-- Folding `recv_step` over lines none of which starts with `received`
returns the accumulator unchanged. -/
theorem recv_fold_none (ls : List Str) :
    ∀ acc : Option Str, (∀ l ∈ ls, litReceived.isPrefixOf l = false) →
      ls.foldlM recv_step acc = Except.ok acc := by
  induction ls with
  | nil => intro acc _; rfl
  | cons l rest ih =>
    intro acc h
    have h1 : litReceived.isPrefixOf l = false := h l (by simp)
    have hstep : recv_step acc l = Except.ok acc := by simp [recv_step, h1]
    rw [List.foldlM_cons, hstep]
    show rest.foldlM recv_step acc = Except.ok acc
    exact ih acc fun x hx => h x (by simp [hx])

/-- Unfolding `asset_from_repo` on a three-part coordinate when the
download command succeeds: the asset is returned as an unchanged copy. -/
theorem asset_from_repo_succeeded (a : Asset) (rn : Option Str) (art x y z : Str)
    (hart : a.artifact = some art) (hsp : pySplit ':' art = [x, y, z]) :
    asset_from_repo a rn none = Except.ok a := by
  unfold asset_from_repo
  simp only [hart, hsp]

/-- Unfolding `asset_from_repo` on a three-part coordinate when the
download command fails with output `out`. -/
theorem asset_from_repo_failed (a : Asset) (rn : Option Str) (out art x y z : Str)
    (hart : a.artifact = some art) (hsp : pySplit ':' art = [x, y, z]) :
    asset_from_repo a rn (some out) =
      match received_sha out with
      | Except.error e => Except.error e
      | Except.ok none => Except.ok a
      | Except.ok (some new_sha) => Except.ok { a with sha1 := some new_sha } := by
  unfold asset_from_repo
  simp only [hart, hsp]

/-- A coordinate split that is not a three-element list makes
`asset_from_repo` raise, as does an absent coordinate. -/
theorem asset_from_repo_not_ok (a : Asset) (rn oc : Option Str) (a' : Asset)
    (h : asset_from_repo a rn oc = Except.ok a') :
    ∃ art x y z, a.artifact = some art ∧ pySplit ':' art = [x, y, z] := by
  unfold asset_from_repo at h
  cases hart : a.artifact with
  | none => simp [hart] at h
  | some art =>
    rcases hsp : pySplit ':' art with _ | ⟨x, _ | ⟨y, _ | ⟨z, _ | ⟨w, ws⟩⟩⟩⟩ <;>
      simp only [hart, hsp] at h
    case nil => exact absurd h (by simp)
    case cons.nil => exact absurd h (by simp)
    case cons.cons.nil => exact absurd h (by simp)
    case cons.cons.cons.cons => exact absurd h (by simp)
    case cons.cons.cons.nil => exact ⟨art, x, y, z, rfl, hsp⟩

/-- Every field of the asset returned by `asset_from_repo` other than
`sha1` equals the input's field. -/
theorem asset_from_repo_fields (a : Asset) (rn oc : Option Str) (a' : Asset)
    (h : asset_from_repo a rn oc = Except.ok a') :
    a'.name = a.name ∧ a'.artifact = a.artifact ∧ a'.repository = a.repository ∧
    a'.src_sha1 = a.src_sha1 ∧ a'.old_version = a.old_version := by
  obtain ⟨art, x, y, z, hart, hsp⟩ := asset_from_repo_not_ok a rn oc a' h
  cases oc with
  | none =>
    rw [asset_from_repo_succeeded a rn art x y z hart hsp] at h
    simp only [Except.ok.injEq] at h
    subst h
    exact ⟨rfl, rfl, rfl, rfl, rfl⟩
  | some out =>
    rw [asset_from_repo_failed a rn out art x y z hart hsp] at h
    cases hr : received_sha out with
    | error e =>
      simp only [hr] at h
      exact absurd h (by simp)
    | ok osha =>
      cases osha with
      | none =>
        simp only [hr, Except.ok.injEq] at h
        subst h
        exact ⟨rfl, rfl, rfl, rfl, rfl⟩
      | some sha =>
        simp only [hr, Except.ok.injEq] at h
        subst h
        exact ⟨rfl, rfl, rfl, rfl, rfl⟩

/-- C10. `asset_from_repo` returns a copy of its input: every field other
than `sha1` is unchanged; the `sha1` field differs only when the failing
download's output contains a line starting with `received`; and when no
such line exists (in particular when the download succeeds), the returned
asset equals the input field for field. -/
theorem asset_from_repo_frame (a : Asset) (rn oc : Option Str) (a' : Asset)
    (h : asset_from_repo a rn oc = Except.ok a') :
    (a'.name = a.name ∧ a'.artifact = a.artifact ∧ a'.repository = a.repository ∧
     a'.src_sha1 = a.src_sha1 ∧ a'.old_version = a.old_version) ∧
    (a'.sha1 ≠ a.sha1 →
      ∃ out, oc = some out ∧
        ∃ l ∈ pySplit '\n' out, litReceived.isPrefixOf l = true) ∧
    ((∀ out, oc = some out →
        ∀ l ∈ pySplit '\n' out, litReceived.isPrefixOf l = false) → a' = a) := by
  obtain ⟨art, x, y, z, hart, hsp⟩ := asset_from_repo_not_ok a rn oc a' h
  refine ⟨asset_from_repo_fields a rn oc a' h, ?_, ?_⟩
  · intro hsha
    cases oc with
    | none =>
      rw [asset_from_repo_succeeded a rn art x y z hart hsp] at h
      simp only [Except.ok.injEq] at h
      subst h
      exact absurd rfl hsha
    | some out =>
      refine ⟨out, rfl, ?_⟩
      by_contra hno
      push_neg at hno
      have hall : ∀ l ∈ pySplit '\n' out, litReceived.isPrefixOf l = false := by
        intro l hl
        exact Bool.eq_false_iff.mpr (hno l hl)
      have hnone : received_sha out = Except.ok none := recv_fold_none _ _ hall
      rw [asset_from_repo_failed a rn out art x y z hart hsp] at h
      simp only [hnone, Except.ok.injEq] at h
      subst h
      exact absurd rfl hsha
  · intro hcl
    cases oc with
    | none =>
      rw [asset_from_repo_succeeded a rn art x y z hart hsp] at h
      simp only [Except.ok.injEq] at h
      exact h.symm
    | some out =>
      have hnone : received_sha out = Except.ok none :=
        recv_fold_none _ _ (hcl out rfl)
      rw [asset_from_repo_failed a rn out art x y z hart hsp] at h
      simp only [hnone, Except.ok.injEq] at h
      exact h.symm

/-- A concrete asset for the C10 witness. -/
def w10asset : Asset :=
  ⟨some ("j".toList), some ("com.x:j:1.0".toList), some ("MAVEN_CENTRAL:".toList),
   some ("aaa".toList), none, none⟩

/-- The failing download output for the C10 witness: it reports a digest
on its `received` line. -/
def w10out : Str := "expected xxxxxxxxxxx\nreceived bbb".toList

/-- Witness for C10 at a concrete asset and collaborator outcome. -/
theorem asset_from_repo_frame_witness :
    (({ w10asset with sha1 := some ("bbb".toList) } : Asset).name = w10asset.name ∧
     ({ w10asset with sha1 := some ("bbb".toList) } : Asset).artifact = w10asset.artifact ∧
     ({ w10asset with sha1 := some ("bbb".toList) } : Asset).repository = w10asset.repository ∧
     ({ w10asset with sha1 := some ("bbb".toList) } : Asset).src_sha1 = w10asset.src_sha1 ∧
     ({ w10asset with sha1 := some ("bbb".toList) } : Asset).old_version = w10asset.old_version) ∧
    (({ w10asset with sha1 := some ("bbb".toList) } : Asset).sha1 ≠ w10asset.sha1 →
      ∃ out, (some w10out : Option Str) = some out ∧
        ∃ l ∈ pySplit '\n' out, litReceived.isPrefixOf l = true) ∧
    ((∀ out, (some w10out : Option Str) = some out →
        ∀ l ∈ pySplit '\n' out, litReceived.isPrefixOf l = false) →
      ({ w10asset with sha1 := some ("bbb".toList) } : Asset) = w10asset) :=
  asset_from_repo_frame w10asset (some ("MAVEN_CENTRAL:".toList)) (some w10out)
    { w10asset with sha1 := some ("bbb".toList) } (by rfl)

/-! ### C6: version reconciliation against the authoritative table -/

/-- Processing a single-asset group reduces to one step of the inner loop
of `process_assets`. -/
theorem process_assets_singleton (properties : List (Str × Str)) (check : Bool)
    (outcomes : Asset → Option Str → Option Str)
    (stype src : Str) (genv : Option (List (Str × Str))) (a : Asset) :
    process_assets properties [⟨stype, src, [a], genv⟩] check outcomes =
      process_asset_step properties check outcomes ([], []) a := by
  unfold process_assets
  cases hstep : process_asset_step properties check outcomes ([], []) a <;>
    simp [List.foldlM_cons, List.foldlM_nil, hstep]

/-- C6. For an asset whose coordinate splits into exactly
`group:artifact:version` and whose property key is present in the
authoritative table: the asset is skipped exactly when its version equals
the table's version; otherwise it is classified for update with a record
whose coordinate carries the authoritative version and whose `old_version`
records the previous version. -/
theorem process_assets_classification (properties : List (Str × Str)) (check : Bool)
    (outcomes : Asset → Option Str → Option Str)
    (stype src : Str) (genv : Option (List (Str × Str)))
    (a : Asset) (art group_id artifact_id version property_version : Str)
    (hart : a.artifact = some art)
    (hsplit : pySplit ':' art = [group_id, artifact_id, version])
    (hkey : lookupA (mk_property_key group_id artifact_id) properties =
      some property_version) :
    (version = property_version →
      process_assets properties [⟨stype, src, [a], genv⟩] check outcomes =
        Except.ok ([], [(a.name, a)])) ∧
    (version ≠ property_version →
      ∀ na, asset_from_repo
              (update_candidate a group_id artifact_id property_version version)
              (update_candidate a group_id artifact_id property_version version).repository
              (outcomes (update_candidate a group_id artifact_id property_version version)
                (update_candidate a group_id artifact_id property_version version).repository) =
            Except.ok na →
        process_assets properties [⟨stype, src, [a], genv⟩] check outcomes =
          Except.ok ([((if artifact_id = litJgit then some artifact_id else na.name), na)],
                     []) ∧
        na.artifact =
          some (group_id ++ litColon ++ artifact_id ++ litColon ++ property_version) ∧
        na.old_version = some version) := by
  rw [process_assets_singleton]
  constructor
  · intro hvp
    unfold process_asset_step
    simp only [hart, hsplit]
    simp only [List.get?]
    simp only [hkey]
    rw [if_pos hvp]
    simp [updAssoc, lookupA]
  · intro hvp na hrepo
    have hfields := asset_from_repo_fields _ _ _ _ hrepo
    refine ⟨?_, ?_, ?_⟩
    · unfold process_asset_step
      simp only [hart, hsplit]
      simp only [List.get?]
      simp only [hkey]
      rw [if_neg hvp]
      simp only [hrepo]
      by_cases hj : artifact_id = litJgit <;> simp [hj, updAssoc, lookupA]
    · rw [hfields.2.1]
      rfl
    · rw [hfields.2.2.2.2]
      rfl

/-- The authoritative table for the C6 witness. -/
def w6properties : List (Str × Str) :=
  [("com.x.lib.version".toList, "2.0".toList)]

/-- The asset for the C6 witness, one version behind the table. -/
def w6asset : Asset :=
  ⟨some ("lib".toList), some ("com.x:lib:1.0".toList), none,
   some ("aaa".toList), none, none⟩

/-- The update candidate the C6 witness produces. -/
def w6cand : Asset :=
  update_candidate w6asset ("com.x".toList) ("lib".toList) ("2.0".toList) ("1.0".toList)

/-- The collaborator for the C6 witness: every download succeeds, so the
digest is left as it was. -/
def w6outcomes : Asset → Option Str → Option Str := fun _ _ => none

/-- Witness for C6 at a concrete asset and table (update branch). -/
theorem process_assets_classification_witness :
    process_assets w6properties [⟨litFILE, "WORKSPACE".toList, [w6asset], none⟩]
        false w6outcomes =
      Except.ok ([((if ("lib".toList : Str) = litJgit then some ("lib".toList)
                    else w6cand.name), w6cand)], []) ∧
    w6cand.artifact =
      some (("com.x".toList : Str) ++ litColon ++ ("lib".toList : Str) ++ litColon ++
        ("2.0".toList : Str)) ∧
    w6cand.old_version = some ("1.0".toList) :=
  (process_assets_classification w6properties false w6outcomes litFILE
      ("WORKSPACE".toList) none w6asset ("com.x:lib:1.0".toList) ("com.x".toList)
      ("lib".toList) ("1.0".toList) ("2.0".toList) rfl (by decide) (by decide)).2
    (by decide) w6cand (by rfl)

/-! ### C8: snapshot digests are written in commented form -/

/-- Reading the `sha1` attribute through Python `getattr`. -/
theorem getattr_sha1 (a : Asset) : a.getattrOpt litSha1 = some a.sha1 := by
  unfold Asset.getattrOpt
  rw [if_neg (by decide), if_neg (by decide), if_neg (by decide), if_pos rfl]

/-- C8. In the line loop of `update_bazel_file`, when the current line is a
`sha1` field of an asset selected for update, the new digest differs from
the one on the line, and the new coordinate contains the snapshot marker,
the line is rewritten to the commented-out digest form carrying the new
value. -/
theorem update_snapshot_sha_commented (assets_to_update : List (Option Str × Asset))
    (st : UpdState) (count : Nat) (line : Str) (ca0 na : Asset) (v nv nart : Str)
    (hline : pyStrip (st.data.getD count []) = line)
    (hnojar : litMavenJarOpen.isPrefixOf line = false)
    (hnoclose : line ≠ litCloseParen)
    (hassign : matches_assignment line = true)
    (hparse : parse_property line '=' = some (litSha1, v))
    (hcur : st.current = some ca0)
    (hlookup : lookupA (Asset.setItem ca0 litSha1 v).name assets_to_update = some na)
    (hsha : na.sha1 = some nv) (hne : v ≠ nv)
    (hart : na.artifact = some nart)
    (hsnap : occursIn litSNAPSHOT nart = true) :
    update_line assets_to_update st count =
      Except.ok { st with
        current := some (Asset.setItem ca0 litSha1 v),
        data := st.data.set count
          (litIndentHash ++ litSha1 ++ litEqQuote ++ nv ++ litQuoteCommaNl) } := by
  simp only [update_line, hline]
  rw [if_neg (by rw [hnojar]; exact Bool.false_ne_true)]
  rw [if_neg (fun hc => hnoclose hc.2)]
  rw [if_pos hassign]
  simp only [hparse]
  simp only [hcur]
  simp only [hlookup]
  rw [if_neg (fun hc => absurd hc.1 (by decide))]
  simp only [getattr_sha1]
  rw [hsha]
  rw [if_pos (fun hc => hne (Option.some.inj hc))]
  simp only [if_true, hart, hsnap]

/-- The updated reference asset for the C8 witness: its coordinate is a
snapshot build and it carries a new digest. -/
def w8na : Asset :=
  ⟨some ("g".toList), some ("com.x:g:2.0-SNAPSHOT".toList), none,
   some ("bbb".toList), none, none⟩

/-- The update dictionary for the C8 witness. -/
def w8atu : List (Option Str × Asset) := [(some ("g".toList), w8na)]

/-- The current asset of the line loop in the C8 witness. -/
def w8ca : Asset := ⟨some ("g".toList), none, none, none, none, none⟩

/-- The loop state for the C8 witness: inside a block, on a digest line. -/
def w8st : UpdState :=
  ⟨[], [], [], some w8ca, ["    sha1 = \"aaa\",".toList]⟩

/-- Witness for C8 at a concrete state and update dictionary. -/
theorem update_snapshot_sha_commented_witness :
    update_line w8atu w8st 0 =
      Except.ok { w8st with
        current := some (Asset.setItem w8ca litSha1 ("aaa".toList)),
        data := w8st.data.set 0
          (litIndentHash ++ litSha1 ++ litEqQuote ++ ("bbb".toList) ++
            litQuoteCommaNl) } :=
  update_snapshot_sha_commented w8atu w8st 0 ("sha1 = \"aaa\",".toList) w8ca w8na
    ("aaa".toList) ("bbb".toList) ("com.x:g:2.0-SNAPSHOT".toList)
    (by decide) (by decide) (by decide) (by decide) (by decide) rfl (by decide)
    rfl (by decide) rfl (by decide)
